import Mathlib

/-!
# Verification of the wusbkit storage-operation engine

Shallow embedding of the parts of `lazaroagomez/wusbkit` that the frozen
claims are about: the disk-spec parser and batch executor
(`internal/parallel/executor.go`), the device resolver
(`internal/usb/enumerate.go`), the image sources (`internal/flash/source.go`),
the raw disk writer's buffer pool (`internal/flash/writer.go`), the flash
write loop (`Flasher.writeImage`), and the `flash` command pipeline
(`cmd/flash.go`).

Go machine integers are modelled as `Int`/`Nat` (the values handled here are
far from the 64-bit bounds except where noted); byte slices as `List Nat`;
fallible calls as `Except String` / `Option String`.  Strings are modelled
character-wise; Go's `strings.ToUpper` / `strings.TrimSpace` are embedded in
their ASCII behaviour, which is all the engine's inputs exercise.
-/

deriving instance DecidableEq for Except

namespace Wusbkit

/-! ## Go string primitives -/

/-- Embeds `strings.ToUpper` restricted to ASCII: each lowercase ASCII letter
is mapped to its uppercase form, every other character is unchanged. -/
def goToUpper (s : String) : String :=
  String.mk (s.data.map fun c => if 'a' ≤ c ∧ c ≤ 'z' then Char.ofNat (c.toNat - 32) else c)

/-- Embeds `strings.HasSuffix`. -/
def goHasSuffix (s suffix : String) : Bool :=
  suffix.data.isSuffixOf s.data

/-- Embeds `strings.HasPrefix`. -/
def goHasPrefix (s pre : String) : Bool :=
  pre.data.isPrefixOf s.data

/-- Go's `s[:len(s)-n]` for ASCII strings: drop the last `n` characters. -/
def goDropRight (s : String) (n : Nat) : String :=
  String.mk (s.data.take (s.data.length - n))

/-- Embeds `strings.TrimSuffix s suffix`: drops `suffix` when `s` ends with
it, otherwise returns `s` unchanged. -/
def goTrimSuffix (s suffix : String) : String :=
  if goHasSuffix s suffix then goDropRight s suffix.length else s

/-- Characters trimmed by `strings.TrimSpace` (ASCII subset of
`unicode.IsSpace`). -/
def goIsSpace (c : Char) : Bool :=
  c = ' ' ∨ c = '\t' ∨ c = '\n' ∨ c = '\x0b' ∨ c = '\x0c' ∨ c = '\r'

/-- Embeds `strings.TrimSpace` (ASCII whitespace). -/
def goTrimSpace (s : String) : String :=
  String.mk ((s.data.dropWhile goIsSpace).reverse.dropWhile goIsSpace).reverse

/-- Embeds `strings.Split` for a single-character separator, on character
lists: splitting the empty string yields one empty token, as in Go. -/
def goSplitList (sep : Char) : List Char → List (List Char)
  | [] => [[]]
  | c :: rest =>
    let r := goSplitList sep rest
    if c = sep then [] :: r
    else
      match r with
      | h :: t => (c :: h) :: t
      | [] => [[c]]

/-- Embeds `strings.Split s sep` for a single-character `sep`. -/
def goSplit (s : String) (sep : Char) : List String :=
  (goSplitList sep s.data).map String.mk

/-- Decimal digit test, as in `strconv`. -/
def isDigit (c : Char) : Bool := '0' ≤ c ∧ c ≤ '9'

/-- Value of a decimal digit list, most significant first. -/
def digitsVal (ds : List Char) : Nat :=
  ds.foldl (fun a d => a * 10 + (d.toNat - 48)) 0

/-- Embeds `strconv.Atoi` (= `strconv.ParseInt(s, 10, 64)` on 64-bit
platforms): an optional single `+`/`-` sign followed by one or more decimal
digits, rejecting anything else and values outside the `int64` range. -/
def goAtoi (s : String) : Option Int :=
  let cs := s.data
  let (neg, digits) :=
    match cs with
    | '-' :: rest => (true, rest)
    | '+' :: rest => (false, rest)
    | _ => (false, cs)
  if digits.isEmpty then none
  else if digits.all isDigit then
    let v : Int := if neg then -(digitsVal digits : Int) else (digitsVal digits : Int)
    if v < -(2 ^ 63) ∨ 2 ^ 63 - 1 < v then none else some v
  else none

example : goAtoi "42" = some 42 := by decide
example : goAtoi "-3" = some (-3) := by decide
example : goAtoi "+7" = some 7 := by decide
example : goAtoi "" = none := by decide
example : goAtoi "4-6" = none := by decide
example : goAtoi " 3" = none := by decide

/-! ## Disk-spec parser (`internal/parallel/executor.go`, `ParseDisks` / `unique`) -/

/-- Embeds `unique`: removes duplicate disk numbers while preserving
first-seen order (the `seen` map becomes a `seen` list). -/
def unique (disks : List Int) : List Int :=
  go [] disks
where
  go (seen : List Int) : List Int → List Int
    | [] => []
    | d :: rest => if d ∈ seen then go seen rest else d :: go (d :: seen) rest

/-- One iteration of the `ParseDisks` token loop: parse a single trimmed,
non-empty token into the numbers it denotes. -/
def parseDisksToken (part : String) : Except String (List Int) :=
  if (part.data.contains '-' : Bool) then
    let bounds := goSplit part '-'
    if h : bounds.length = 2 then
      let b0 := bounds.get ⟨0, by omega⟩
      let b1 := bounds.get ⟨1, by omega⟩
      match goAtoi (goTrimSpace b0) with
      | none => .error ("invalid range start: " ++ b0)
      | some start =>
        match goAtoi (goTrimSpace b1) with
        | none => .error ("invalid range end: " ++ b1)
        | some stop =>
          if start > stop then
            .error ("invalid range: start > end (" ++ toString start ++ " > " ++ toString stop ++ ")")
          else
            .ok ((List.range (stop - start).toNat.succ).map fun i => start + i)
    else .error ("invalid range: " ++ part)
  else
    match goAtoi part with
    | none => .error ("invalid disk number: " ++ part)
    | some d => .ok [d]

/-- The token loop of `ParseDisks`: accumulate the numbers each trimmed,
non-empty token denotes; the first token error aborts; at the end the
accumulated list is deduplicated. -/
def parseDisksLoop : List String → List Int → Except String (List Int)
  | [], disks => .ok (unique disks)
  | part :: rest, disks =>
    let part := goTrimSpace part
    if part = "" then parseDisksLoop rest disks
    else
      match parseDisksToken part with
      | .error e => .error e
      | .ok ds => parseDisksLoop rest (disks ++ ds)

/-- Embeds `ParseDisks`: split on commas, trim each token, skip empty tokens,
expand single numbers and inclusive ranges, then deduplicate. -/
def parseDisks (arg : String) : Except String (List Int) :=
  parseDisksLoop (goSplit arg ',') []

example : parseDisks "2,4-6,8" = .ok [2, 4, 5, 6, 8] := by decide
example : parseDisks "2,2,3" = .ok [2, 3] := by decide
example : parseDisks "5-3" = .error "invalid range: start > end (5 > 3)" := by decide
example : parseDisks "a" = .error "invalid disk number: a" := by decide

/-! ## Device model and resolver (`internal/usb/enumerate.go`) -/

/-- The fields of `usb.Device` that the resolver and the flash command
inspect (`DiskNumber`, `DriveLetter`, `Size`, plus the display fields used in
error messages). -/
structure Device where
  diskNumber : Int
  driveLetter : String
  size : Int
  sizeHuman : String
  friendlyName : String
deriving DecidableEq, Repr

/-- Embeds `Enumerator.GetDeviceByDiskNumber`: linear scan of the enumerated
devices for a matching disk number. -/
def getDeviceByDiskNumber (devices : List Device) (diskNumber : Int) : Except String Device :=
  match devices.find? (fun d => d.diskNumber = diskNumber) with
  | some d => .ok d
  | none => .error ("USB disk " ++ toString diskNumber ++ ": not found")

/-- Embeds `Enumerator.GetDeviceByDriveLetter`: uppercase the identifier,
strip a trailing colon, require exactly one letter `A`-`Z`, then scan the
enumerated devices comparing their colon-stripped drive letters. -/
def getDeviceByDriveLetter (devices : List Device) (driveLetter : String) : Except String Device :=
  let dl := goTrimSuffix (goToUpper driveLetter) ":"
  if dl.length ≠ 1 ∨ dl.data.headD ' ' < 'A' ∨ 'Z' < dl.data.headD ' ' then
    .error ("invalid drive letter: " ++ dl)
  else
    match devices.find? (fun d => goTrimSuffix d.driveLetter ":" = dl) with
    | some d => .ok d
    | none => .error ("USB drive " ++ dl ++ ": not found")

/-- Embeds `Enumerator.GetDevice`: try `strconv.Atoi` first and resolve by
disk number on success, otherwise resolve as a drive letter. -/
def getDevice (devices : List Device) (identifier : String) : Except String Device :=
  match goAtoi identifier with
  | some diskNum => getDeviceByDiskNumber devices diskNum
  | none => getDeviceByDriveLetter devices identifier

/-! ## Gzip declared size (`internal/flash/source.go`, `getGzipUncompressedSize`) -/

/-- 1 GiB, the `oneGB` constant of `getGzipUncompressedSize`. -/
def oneGB : Int := 1 <<< 30

/-- Embeds the footer-validation logic of `getGzipUncompressedSize`, as a
function of the compressed file length and the decoded little-endian 32-bit
ISIZE footer value (the seek/read error fallbacks of the Go function are I/O
failures outside this model). -/
def gzipUncompressedSize (compressedSize : Int) (isize : Nat) : Int :=
  let uncompressedSize : Int := (isize : Int)
  if uncompressedSize < compressedSize then
    compressedSize * 3
  else if compressedSize > oneGB ∧ uncompressedSize < oneGB then
    compressedSize * 3
  else
    uncompressedSize

/-! ## SHA-256 (`crypto/sha256` as used by the flash pipeline's hasher)

The hasher the write loop feeds is Go's `crypto/sha256`; `fmt.Sprintf("%x",
hasher.Sum(nil))` renders the 32 digest bytes as lowercase hex.  The standard
algorithm (FIPS 180-4) is embedded here executably over byte lists. -/

/-- Truncate to a 32-bit word. -/
def w32 (n : Nat) : Nat := n % 4294967296

/-- 32-bit rotate right. -/
def rotr32 (x n : Nat) : Nat := w32 ((x >>> n) ||| (x <<< (32 - n)))

def bsig0 (x : Nat) : Nat := rotr32 x 2 ^^^ rotr32 x 13 ^^^ rotr32 x 22
def bsig1 (x : Nat) : Nat := rotr32 x 6 ^^^ rotr32 x 11 ^^^ rotr32 x 25
def ssig0 (x : Nat) : Nat := rotr32 x 7 ^^^ rotr32 x 18 ^^^ (x >>> 3)
def ssig1 (x : Nat) : Nat := rotr32 x 17 ^^^ rotr32 x 19 ^^^ (x >>> 10)

/-- The 64 SHA-256 round constants (FIPS 180-4, in decimal). -/
def sha256k : List Nat :=
  [1116352408, 1899447441, 3049323471, 3921009573, 961987163, 1508970993,
   2453635748, 2870763221, 3624381080, 310598401, 607225278, 1426881987,
   1925078388, 2162078206, 2614888103, 3248222580, 3835390401, 4022224774,
   264347078, 604807628, 770255983, 1249150122, 1555081692, 1996064986,
   2554220882, 2821834349, 2952996808, 3210313671, 3336571891, 3584528711,
   113926993, 338241895, 666307205, 773529912, 1294757372, 1396182291,
   1695183700, 1986661051, 2177026350, 2456956037, 2730485921, 2820302411,
   3259730800, 3345764771, 3516065817, 3600352804, 4094571909, 275423344,
   430227734, 506948616, 659060556, 883997877, 958139571, 1322822218,
   1537002063, 1747873779, 1955562222, 2024104815, 2227730452, 2361852424,
   2428436474, 2756734187, 3204031479, 3329325298]

/-- The SHA-256 working state: eight 32-bit words. -/
structure Sha256State where
  a : Nat
  b : Nat
  c : Nat
  d : Nat
  e : Nat
  f : Nat
  g : Nat
  h : Nat
deriving DecidableEq, Repr

/-- The SHA-256 initial hash value (FIPS 180-4, in decimal). -/
def sha256init : Sha256State :=
  ⟨1779033703, 3144134277, 1013904242, 2773480762,
   1359893119, 2600822924, 528734635, 1541459225⟩

/-- One SHA-256 compression round for round constant `ki` and schedule word
`wi`. -/
def sha256round (st : Sha256State) (ki wi : Nat) : Sha256State :=
  let ch := (st.e &&& st.f) ^^^ ((st.e ^^^ 0xffffffff) &&& st.g)
  let temp1 := w32 (st.h + bsig1 st.e + ch + ki + wi)
  let maj := (st.a &&& st.b) ^^^ (st.a &&& st.c) ^^^ (st.b &&& st.c)
  let temp2 := w32 (bsig0 st.a + maj)
  ⟨w32 (temp1 + temp2), st.a, st.b, st.c, w32 (st.d + temp1), st.e, st.f, st.g⟩

/-- Extend a 16-word message block to the 64-word schedule (`fuel` more words
to append). -/
def sha256extend (w : List Nat) : Nat → List Nat
  | 0 => w
  | fuel + 1 =>
    let n := w.length
    let wi := w32 (ssig1 (w.getD (n - 2) 0) + w.getD (n - 7) 0 +
                   ssig0 (w.getD (n - 15) 0) + w.getD (n - 16) 0)
    sha256extend (w ++ [wi]) fuel

/-- Compress one 16-word block into the running hash state. -/
def sha256block (st : Sha256State) (block : List Nat) : Sha256State :=
  let sched := sha256extend block 48
  let r := (sched.zip sha256k).foldl (fun s (p : Nat × Nat) => sha256round s p.2 p.1) st
  ⟨w32 (st.a + r.a), w32 (st.b + r.b), w32 (st.c + r.c), w32 (st.d + r.d),
   w32 (st.e + r.e), w32 (st.f + r.f), w32 (st.g + r.g), w32 (st.h + r.h)⟩

/-- Big-endian bytes of `n`, `len` bytes wide. -/
def toBytesBE (len n : Nat) : List Nat :=
  (List.range len).reverse.map fun i => (n >>> (8 * i)) % 256

/-- SHA-256 padding: `0x80`, zeros to 56 mod 64, then the 64-bit big-endian
bit length. -/
def sha256pad (msg : List Nat) : List Nat :=
  let ml := msg.length
  let zeros := (56 + 64 - (ml + 1) % 64) % 64
  msg ++ [0x80] ++ List.replicate zeros 0 ++ toBytesBE 8 (ml * 8)

/-- Group bytes into big-endian 32-bit words (input length a multiple of 4). -/
def bytesToWords : List Nat → List Nat
  | b0 :: b1 :: b2 :: b3 :: rest => (((b0 * 256 + b1) * 256 + b2) * 256 + b3) :: bytesToWords rest
  | _ => []

/-- Group words into 16-word blocks (input length a multiple of 16). -/
def wordsToBlocks : List Nat → List (List Nat)
  | w0 :: w1 :: w2 :: w3 :: w4 :: w5 :: w6 :: w7 ::
    w8 :: w9 :: w10 :: w11 :: w12 :: w13 :: w14 :: w15 :: rest =>
      [w0, w1, w2, w3, w4, w5, w6, w7, w8, w9, w10, w11, w12, w13, w14, w15] :: wordsToBlocks rest
  | _ => []

/-- The SHA-256 digest of a byte list, as the eight final hash words. -/
def sha256 (msg : List Nat) : Sha256State :=
  (wordsToBlocks (bytesToWords (sha256pad msg))).foldl sha256block sha256init

/-- Lowercase hex digit. -/
def hexDigit (n : Nat) : Char :=
  if n < 10 then Char.ofNat (48 + n) else Char.ofNat (87 + n)

/-- Lowercase hex of a 32-bit word, 8 digits. -/
def toHex32 (n : Nat) : String :=
  String.mk ((List.range 8).reverse.map fun i => hexDigit ((n >>> (4 * i)) % 16))

/-- Embeds `fmt.Sprintf("%x", hasher.Sum(nil))`: the lowercase-hex SHA-256
digest of a byte list. -/
def sha256hex (msg : List Nat) : String :=
  let st := sha256 msg
  toHex32 st.a ++ toHex32 st.b ++ toHex32 st.c ++ toHex32 st.d ++
  toHex32 st.e ++ toHex32 st.f ++ toHex32 st.g ++ toHex32 st.h

set_option maxRecDepth 100000 in
example : sha256hex [] = "e3b0c44298fc1c149afbf4c8996fb92427ae41e4649b934ca495991b7852b855" := by
  decide

set_option maxRecDepth 100000 in
example : sha256hex [97, 98, 99] =
    "ba7816bf8f01cfea414140de5dae2223b00361a396177a9cb410ff61f20015ad" := by
  decide

/-! ## Aligned buffers and the buffer pool (`internal/flash/writer.go`) -/

/-- Alignment required for unbuffered I/O (4 KB), the `alignment` constant. -/
def alignment : Nat := 4096

/-- Embeds `alignSize`: round `size` up to the nearest alignment boundary. -/
def alignSize (size : Nat) : Nat :=
  ((size + alignment - 1) / alignment) * alignment

/-- A Go byte slice together with the machine address of its first element,
which is what `alignedBuffer` manipulates via `unsafe.Pointer`. -/
structure GoSlice where
  addr : Nat
  data : List Nat
deriving DecidableEq, Repr

/-- Embeds `alignedBuffer`: allocate `size + alignment` zero bytes at some
base address (a model parameter) and slice off `buf[offset : offset+size]`
where `offset` realigns the base address to a 4096 boundary. -/
def alignedBuffer (size : Nat) (baseAddr : Nat) : GoSlice :=
  let offset := (alignment - baseAddr % alignment) % alignment
  { addr := baseAddr + offset
    data := (List.replicate (size + alignment) 0).drop offset |>.take size }

/-- Embeds `GetBuffer` for one size class of the global pool: reuse a pooled
buffer if one is available (`sync.Pool.Get`), otherwise allocate a fresh
aligned one (the pool's `New`). Returns the buffer and the remaining pool. -/
def GetBuffer (pool : List GoSlice) (size : Nat) (freshBaseAddr : Nat) : GoSlice × List GoSlice :=
  match pool with
  | [] => (alignedBuffer size freshBaseAddr, [])
  | b :: rest => (b, rest)

/-- Embeds `PutBuffer` for one size class: a nil buffer or one whose length
differs from `size` is silently dropped; an accepted buffer is cleared to
zero (`clear(buf)`) and pushed into the pool. -/
def PutBuffer (pool : List GoSlice) (size : Nat) (buf : Option GoSlice) : List GoSlice :=
  match buf with
  | none => pool
  | some b =>
    if b.data.length ≠ size then pool
    else { b with data := List.replicate b.data.length 0 } :: pool

/-! ## The flash write loop (`Flasher.writeImage`, `src/unnamed/part_003`)

The loop reads from the source into a 4 MiB-class buffer, optionally hashes
the fresh bytes, zero-pads the tail of the buffer to the next sector
boundary, optionally compares against the disk (skip-unchanged), writes, and
advances the offset counter `bytesWritten` by the read count `n`.

The source is modelled as the sequence of results its `Read` calls return: a
list of `(data, err)` pairs consumed in order, after which `Read` returns
`(0, EOF)`.  The disk writer is modelled as an environment giving the outcome
of each positional `ReadAt`/`WriteAt`.  Context cancellation only truncates
the loop before an iteration and is not modelled; every call an interrupted
run makes is a prefix of the corresponding uninterrupted run's calls. -/

/-- One result of `source.Read(buffer)`: the `n = data.length` bytes placed
in the buffer and the error returned alongside. -/
structure SourceRead where
  data : List Nat
  err : Option String
deriving DecidableEq, Repr

/-- The flash options the write loop inspects. -/
structure WriteOpts where
  calculateHash : Bool
  skipUnchanged : Bool
deriving DecidableEq, Repr

/-- The disk writer as seen by the loop: whether `ReadAt` at a given offset
succeeds, the disk bytes it returns, and the `(error, written)` result of
`WriteAt` given an offset and a length. -/
structure DiskEnv where
  readAtOk : Nat → Bool
  diskByte : Nat → Nat
  writeAt : Nat → Nat → Option String × Nat

/-- A positional I/O call issued to the raw disk writer, with its buffer
length and offset. -/
inductive IOCall where
  | readAt (len offset : Nat)
  | writeAt (len offset : Nat)
deriving DecidableEq, Repr

/-- Accounting record for one loop iteration that read `n > 0` bytes:
`wrote` is the iteration's `shouldWrite` flag (false exactly when the
skip-unchanged comparison suppressed the write). -/
structure IterRec where
  n : Nat
  wrote : Bool
deriving DecidableEq, Repr

/-- The observable outcome of `writeImage`: the returned triple
`(finalHash, bytesSkipped, err)` plus the instrumentation the claims need:
every positional I/O call in order, the bytes produced by the `Read` calls,
the per-iteration accounting, and the final offset counter. -/
structure WriteImageResult where
  hash : String
  bytesSkipped : Nat
  err : Option String
  calls : List IOCall
  consumed : List (List Nat)
  iters : List IterRec
  bytesWritten : Nat
deriving DecidableEq, Repr

/-- The write loop of `writeImage`, recursing over the source's remaining
read results.  State threaded exactly as the Go loop does: `bytesWritten`
(the offset counter), `bytesSkipped`, and the hasher's accumulated input
`hashed`; `calls`/`consumed`/`iters` instrument the run. -/
def writeImageLoop (env : DiskEnv) (opts : WriteOpts) :
    List SourceRead → Nat → Nat → List Nat → List IOCall → List (List Nat) → List IterRec →
    WriteImageResult
  | [], bytesWritten, bytesSkipped, hashed, calls, consumed, iters =>
    -- source exhausted: Read returns (0, EOF) and the loop breaks
    { hash := if opts.calculateHash then sha256hex hashed else ""
      bytesSkipped := bytesSkipped, err := none
      calls := calls, consumed := consumed, iters := iters, bytesWritten := bytesWritten }
  | r :: rest, bytesWritten, bytesSkipped, hashed, calls, consumed, iters =>
    let n := r.data.length
    if n = 0 then
      match r.err with
      | some e =>
        if e = "EOF" then
          { hash := if opts.calculateHash then sha256hex hashed else ""
            bytesSkipped := bytesSkipped, err := none
            calls := calls, consumed := consumed ++ [r.data], iters := iters
            bytesWritten := bytesWritten }
        else
          { hash := "", bytesSkipped := 0, err := some e
            calls := calls, consumed := consumed ++ [r.data], iters := iters
            bytesWritten := bytesWritten }
      | none =>
        { hash := if opts.calculateHash then sha256hex hashed else ""
          bytesSkipped := bytesSkipped, err := none
          calls := calls, consumed := consumed ++ [r.data], iters := iters
          bytesWritten := bytesWritten }
    else
      -- n > 0: hash the fresh bytes, align, optionally compare, write
      let hashed := if opts.calculateHash then hashed ++ r.data else hashed
      let consumed := consumed ++ [r.data]
      let writeSize := alignSize n
      let (shouldWrite, calls, bytesSkipped) :=
        if opts.skipUnchanged then
          let calls := calls ++ [IOCall.readAt writeSize bytesWritten]
          let diskData := (List.range n).map fun i => env.diskByte (bytesWritten + i)
          if env.readAtOk bytesWritten ∧ r.data = diskData then
            (false, calls, bytesSkipped + n)
          else
            (true, calls, bytesSkipped)
        else
          (true, calls, bytesSkipped)
      if shouldWrite then
        let calls := calls ++ [IOCall.writeAt writeSize bytesWritten]
        let (werr, written) := env.writeAt bytesWritten writeSize
        match werr with
        | some e =>
          { hash := "", bytesSkipped := 0, err := some e
            calls := calls, consumed := consumed
            iters := iters ++ [{ n := n, wrote := true }], bytesWritten := bytesWritten }
        | none =>
          if written < writeSize then
            { hash := if opts.calculateHash then sha256hex hashed else ""
              bytesSkipped := bytesSkipped, err := none
              calls := calls, consumed := consumed
              iters := iters ++ [{ n := n, wrote := true }], bytesWritten := bytesWritten + n }
          else
            writeImageLoop env opts rest (bytesWritten + n) bytesSkipped hashed calls consumed
              (iters ++ [{ n := n, wrote := true }])
      else
        writeImageLoop env opts rest (bytesWritten + n) bytesSkipped hashed calls consumed
          (iters ++ [{ n := n, wrote := false }])

/-- Embeds `Flasher.writeImage` (modulo progress emission and buffer-pool
checkout, which do not touch the disk): run the write loop from offset 0 with
empty accumulators, over the given source reads. -/
def writeImage (env : DiskEnv) (opts : WriteOpts) (reads : List SourceRead) : WriteImageResult :=
  writeImageLoop env opts reads 0 0 [] [] [] []

/-! ## Durations (`time.Duration.String`, used for `OperationResult.Duration`)

Every non-cancelled executor path fills `Duration` with
`time.Since(start).String()`.  `time.Since` is non-negative, so the duration
is embedded for non-negative nanosecond counts, following Go's
`fmtFrac`/`fmtInt` rendering. -/

/-- Embeds `fmtFrac`: emit up to `prec` low decimal digits of `v` (least
significant first, prepending), skipping trailing zeros; returns the digits
accumulated so far, the remaining value, and whether anything was printed. -/
def durFracAux : Nat → Nat → Bool → List Char → List Char × Nat × Bool
  | 0, v, print, acc => (acc, v, print)
  | prec + 1, v, print, acc =>
    let digit := v % 10
    let print := print || digit ≠ 0
    let acc := if print then Char.ofNat (48 + digit) :: acc else acc
    durFracAux prec (v / 10) print acc

/-- `fmtFrac` proper: the fraction string (with leading `.` when non-empty)
and the remaining integral value. -/
def durFrac (prec v : Nat) : List Char × Nat :=
  let (acc, v, print) := durFracAux prec v false []
  (if print then '.' :: acc else acc, v)

/-- Embeds `time.Duration.String()` for a non-negative duration of `u`
nanoseconds. -/
def goDurationString (u : Nat) : String :=
  if u < 1000000000 then
    if u = 0 then "0s"
    else
      let pu : Nat × String :=
        if u < 1000 then (0, "ns")
        else if u < 1000000 then (3, "µs")
        else (6, "ms")
      let fv := durFrac pu.1 u
      toString fv.2 ++ String.mk fv.1 ++ pu.2
  else
    let fv := durFrac 9 u
    let v := fv.2
    let s1 := toString (v % 60) ++ String.mk fv.1 ++ "s"
    let v := v / 60
    if v = 0 then s1
    else
      let s2 := toString (v % 60) ++ "m" ++ s1
      let v := v / 60
      if v = 0 then s2 else toString v ++ "h" ++ s2

example : goDurationString 0 = "0s" := by decide
example : goDurationString 1500 = "1.5µs" := by decide
example : goDurationString 90000000000 = "1m30s" := by decide
example : goDurationString 3601000000000 = "1h0m1s" := by decide

/-! ## Parallel executor (`internal/parallel/executor.go`)

Each input disk gets its own goroutine writing `results[idx]` under the
mutex; the shared `results` slice is index-addressed, so the batch value is a
function of each task's own outcome, independent of finish order.  A task's
interaction with its environment is abstracted into a `TaskOutcome`: which
exit path the goroutine body took. -/

/-- Embeds `errorString`. -/
def errorString : Option String → String
  | none => ""
  | some msg => msg

/-- `parallel.OperationResult` (the executor version with both identifier
fields); defaults are Go zero values. -/
structure OperationResult where
  diskNumber : Int := 0
  driveLetter : String := ""
  success : Bool := false
  error : String := ""
  duration : String := ""
deriving DecidableEq, Repr

/-- `parallel.BatchResult`. -/
structure BatchResult where
  results : List OperationResult
  total : Nat
  succeeded : Nat
  failed : Nat
deriving DecidableEq, Repr

/-- The exit path a `FormatAll`/`FlashAll` goroutine body takes:
cancellation winning the semaphore race, `lock.NewDiskLock` failing,
`TryLock` timing out, or the operation running to an error-or-nil result. -/
inductive TaskOutcome where
  | cancelled
  | lockErr (msg : String)
  | lockBusy
  | opDone (err : Option String)
deriving DecidableEq, Repr

/-- The exit path a `LabelAll` goroutine body takes (no disk lock). -/
inductive LabelOutcome where
  | cancelled
  | opDone (err : Option String)
deriving DecidableEq, Repr

/-- The `OperationResult` a `FlashAll` task records for its index, per exit
path; `elapsed` is the `time.Since(start)` nanosecond count of the body. -/
def flashTaskResult (diskNum : Int) (o : TaskOutcome) (elapsed : Nat) : OperationResult :=
  match o with
  | .cancelled => { diskNumber := diskNum, success := false, error := "cancelled" }
  | .lockErr msg =>
    { diskNumber := diskNum, success := false, error := msg
      duration := goDurationString elapsed }
  | .lockBusy =>
    { diskNumber := diskNum, success := false, error := "disk busy"
      duration := goDurationString elapsed }
  | .opDone err =>
    { diskNumber := diskNum, success := err.isNone, error := errorString err
      duration := goDurationString elapsed }

/-- The `OperationResult` a `FormatAll` task records: the body is
structurally identical to `FlashAll`'s (only the dispatched operation
differs). -/
def formatTaskResult (diskNum : Int) (o : TaskOutcome) (elapsed : Nat) : OperationResult :=
  match o with
  | .cancelled => { diskNumber := diskNum, success := false, error := "cancelled" }
  | .lockErr msg =>
    { diskNumber := diskNum, success := false, error := msg
      duration := goDurationString elapsed }
  | .lockBusy =>
    { diskNumber := diskNum, success := false, error := "disk busy"
      duration := goDurationString elapsed }
  | .opDone err =>
    { diskNumber := diskNum, success := err.isNone, error := errorString err
      duration := goDurationString elapsed }

/-- The `OperationResult` a `LabelAll` task records for drive letter `dl`. -/
def labelTaskResult (dl : String) (o : LabelOutcome) (elapsed : Nat) : OperationResult :=
  match o with
  | .cancelled => { driveLetter := dl ++ ":", success := false, error := "cancelled" }
  | .opDone err =>
    { driveLetter := dl ++ ":", success := err.isNone, error := errorString err
      duration := goDurationString elapsed }

/-- The index-addressed `results` slice after `wg.Wait()`: task `i` ran on
`disks[i]` with its own outcome and elapsed time. -/
def runTasks (taskRes : Int → TaskOutcome → Nat → OperationResult)
    (outcome : Nat → TaskOutcome) (elapsed : Nat → Nat) : Nat → List Int → List OperationResult
  | _, [] => []
  | i, d :: rest => taskRes d (outcome i) (elapsed i) :: runTasks taskRes outcome elapsed (i + 1) rest

/-- The summary loop of `FormatAll`/`FlashAll`/`LabelAll`: count successes
and failures over the results. -/
def buildBatch (results : List OperationResult) (total : Nat) : BatchResult :=
  let sf := results.foldl
    (fun (p : Nat × Nat) r => if r.success then (p.1 + 1, p.2) else (p.1, p.2 + 1)) (0, 0)
  { results := results, total := total, succeeded := sf.1, failed := sf.2 }

/-- Embeds `Executor.FlashAll`, with each task's environment interaction
abstracted into per-index outcomes and elapsed times. -/
def FlashAll (disks : List Int) (outcome : Nat → TaskOutcome) (elapsed : Nat → Nat) : BatchResult :=
  buildBatch (runTasks flashTaskResult outcome elapsed 0 disks) disks.length

/-- Embeds `Executor.FormatAll`. -/
def FormatAll (disks : List Int) (outcome : Nat → TaskOutcome) (elapsed : Nat → Nat) : BatchResult :=
  buildBatch (runTasks formatTaskResult outcome elapsed 0 disks) disks.length

/-- The index-addressed results of `Executor.LabelAll` over drive letters. -/
def runLabelTasks (outcome : Nat → LabelOutcome) (elapsed : Nat → Nat) :
    Nat → List String → List OperationResult
  | _, [] => []
  | i, dl :: rest => labelTaskResult dl (outcome i) (elapsed i) :: runLabelTasks outcome elapsed (i + 1) rest

/-- Embeds `Executor.LabelAll`. -/
def LabelAll (driveLetters : List String) (outcome : Nat → LabelOutcome) (elapsed : Nat → Nat) :
    BatchResult :=
  buildBatch (runLabelTasks outcome elapsed 0 driveLetters) driveLetters.length

/-! ## The `flash` command pipeline (`cmd/flash.go`)

`runSingleFlash` and `runParallelFlash` perform a sequence of checks before
they construct a `Flasher` and call `Flash` (which is the only place the raw
disk writer is opened, locking and dismounting volumes).  The checks are
embedded as a straight-line pipeline over an environment capturing the
process state each check consults.  Error messages whose Go rendering uses
floating-point formatting (`flash.FormatBytes`) are abstracted into
structured error constructors. -/

/-- Embeds `IsURL`: the path looks like an HTTP/HTTPS URL. -/
def IsURL (path : String) : Bool :=
  goHasPrefix path "http://" || goHasPrefix path "https://"

/-- Embeds `parseSize`: size strings like `64G`, `256M`, `1T` to bytes. -/
def parseSize (s : String) : Except String Int :=
  let s := goTrimSpace (goToUpper s)
  if s = "" then .ok 0
  else
    let s := goTrimSuffix s "B"
    let ms : Int × String :=
      if goHasSuffix s "T" then (1024 ^ 4, goDropRight s 1)
      else if goHasSuffix s "G" then (1024 ^ 3, goDropRight s 1)
      else if goHasSuffix s "M" then (1024 ^ 2, goDropRight s 1)
      else if goHasSuffix s "K" then (1024, goDropRight s 1)
      else (1, s)
    match goAtoi ms.2 with
    | none => .error ("invalid size: " ++ ms.2)
    | some n => .ok (n * ms.1)

example : parseSize "64G" = .ok 68719476736 := by decide

/-- Embeds `parseBufferSize`: buffer size strings like `4M`, `8MB`, `16` to
megabytes. -/
def parseBufferSize (s : String) : Except String Int :=
  let s := goTrimSpace (goToUpper s)
  let s := goTrimSuffix s "B"
  if goHasSuffix s "M" then
    match goAtoi (goTrimSuffix s "M") with
    | none => .error ("invalid buffer size: " ++ s)
    | some v => .ok v
  else
    match goAtoi s with
    | none => .error ("invalid buffer size: " ++ s ++ " (use format like 4M or 8MB)")
    | some v => .ok v

example : parseBufferSize "8MB" = .ok 8 := by decide

/-- The command-line flags `runFlash` reads. -/
structure FlashFlags where
  identifier : String
  flashImage : String
  flashVerify : Bool
  flashYes : Bool
  flashBuffer : String
  flashHash : Bool
  flashSkipUnchanged : Bool
  flashMaxSize : String
  flashForce : Bool
  jsonOutput : Bool
deriving DecidableEq, Repr

/-- What `flash.OpenSource` reported: the declared size and display name. -/
structure SourceInfo where
  size : Int
  name : String
deriving DecidableEq, Repr

/-- The process state the pipeline's checks consult. -/
structure FlashCmdEnv where
  imageFileExists : Bool
  isAdmin : Bool
  pwshOk : Bool
  devices : List Device
  isSystemDisk : Int → Bool
  lockCreate : Option String
  lockAcquire : Option String
  sourceOpen : Except String SourceInfo
  confirmed : Bool

/-- A rejection of the flash command before any flasher runs.  Constructors
carrying a `String` keep the exact Go message; the others abstract messages
rendered with float formatting. -/
inductive CmdErr where
  | imageNotFound (path : String)
  | notAdmin
  | pwshMissing
  | deviceLookup (msg : String)
  | sizeParse (msg : String)
  | maxSizeExceeded (diskNumber : Int)
  | systemDisk (diskNumber : Int)
  | lockCreate (msg : String)
  | lockAcquire (msg : String)
  | sourceOpen (msg : String)
  | imageTooLarge (diskNumber : Int)
  | bufferParse (msg : String)
  | bufferRange (got : Int)
  | parseDisksErr (msg : String)
  | noDisks
deriving DecidableEq, Repr

/-- Result of `runSingleFlash` up to the point `flasher.Flash` is invoked:
either a rejection, a user-declined confirmation (returns nil without
flashing), or the flash invocation with its options. -/
inductive CmdOutcome where
  | errored (e : CmdErr)
  | declined
  | flashed (diskNumber : Int) (bufferMB : Int)
deriving DecidableEq, Repr

/-- The safety checks of `runSingleFlash` (max-size limit and system-disk
heuristic), skipped under `--force`. -/
def singleSafetyChecks (flags : FlashFlags) (env : FlashCmdEnv) (device : Device) :
    Option CmdErr :=
  if flags.flashForce then none
  else
    match (if flags.flashMaxSize ≠ "" then
            match parseSize flags.flashMaxSize with
            | .error e => some (CmdErr.sizeParse e)
            | .ok maxSize =>
              if maxSize > 0 ∧ device.size > maxSize then
                some (CmdErr.maxSizeExceeded device.diskNumber)
              else none
          else none) with
    | some e => some e
    | none =>
      if env.isSystemDisk device.diskNumber then some (CmdErr.systemDisk device.diskNumber)
      else none

/-- Embeds `runSingleFlash` up to the `flasher.Flash` call, in the source's
check order: image existence, admin, PowerShell, device resolution, safety
checks, disk lock, source open, image-fits-on-device, confirmation, buffer
validation. -/
def runSingleFlash (flags : FlashFlags) (env : FlashCmdEnv) : CmdOutcome :=
  if ¬IsURL flags.flashImage ∧ ¬env.imageFileExists then
    .errored (.imageNotFound flags.flashImage)
  else if ¬env.isAdmin then .errored .notAdmin
  else if ¬env.pwshOk then .errored .pwshMissing
  else
    match getDevice env.devices flags.identifier with
    | .error e => .errored (.deviceLookup e)
    | .ok device =>
      match singleSafetyChecks flags env device with
      | some e => .errored e
      | none =>
        match env.lockCreate with
        | some e => .errored (.lockCreate e)
        | none =>
          match env.lockAcquire with
          | some e => .errored (.lockAcquire e)
          | none =>
            match env.sourceOpen with
            | .error e => .errored (.sourceOpen e)
            | .ok info =>
              if info.size > device.size then .errored (.imageTooLarge device.diskNumber)
              else if ¬flags.flashYes ∧ ¬flags.jsonOutput ∧ ¬env.confirmed then .declined
              else
                match parseBufferSize flags.flashBuffer with
                | .error e => .errored (.bufferParse e)
                | .ok bufferMB =>
                  if bufferMB < 1 ∨ bufferMB > 64 then .errored (.bufferRange bufferMB)
                  else .flashed device.diskNumber bufferMB

/-- Result of `runParallelFlash` up to the `executor.FlashAll` call. -/
inductive ParallelOutcome where
  | errored (e : CmdErr)
  | declined
  | flashedAll (disks : List Int) (bufferMB : Int)
deriving DecidableEq, Repr

/-- The per-disk validation loop of `runParallelFlash`: resolve each disk,
require the image to fit, and apply the safety checks; the first failure
aborts the command. -/
def validateParallelDisks (flags : FlashFlags) (env : FlashCmdEnv) (imageSize : Int) :
    List Int → Option CmdErr
  | [] => none
  | diskNum :: rest =>
    match getDeviceByDiskNumber env.devices diskNum with
    | .error e => some (.deviceLookup ("disk " ++ toString diskNum ++ ": " ++ e))
    | .ok device =>
      if imageSize > device.size then some (.imageTooLarge diskNum)
      else
        match (if flags.flashForce then none
               else
                 match (if flags.flashMaxSize ≠ "" then
                         match parseSize flags.flashMaxSize with
                         | .error e => some (CmdErr.sizeParse e)
                         | .ok maxSize =>
                           if maxSize > 0 ∧ device.size > maxSize then
                             some (CmdErr.maxSizeExceeded diskNum)
                           else none
                       else none) with
                 | some e => some e
                 | none =>
                   if env.isSystemDisk device.diskNumber then some (CmdErr.systemDisk diskNum)
                   else none) with
        | some e => some e
        | none => validateParallelDisks flags env imageSize rest

/-- Embeds `runParallelFlash` up to the `executor.FlashAll` call, in the
source's order: disk-spec parse, non-empty, image existence, admin,
PowerShell, source open, per-disk validation, confirmation, buffer
validation. -/
def runParallelFlash (flags : FlashFlags) (env : FlashCmdEnv) : ParallelOutcome :=
  match parseDisks flags.identifier with
  | .error e => .errored (.parseDisksErr e)
  | .ok disks =>
    if disks.length = 0 then .errored .noDisks
    else if ¬IsURL flags.flashImage ∧ ¬env.imageFileExists then
      .errored (.imageNotFound flags.flashImage)
    else if ¬env.isAdmin then .errored .notAdmin
    else if ¬env.pwshOk then .errored .pwshMissing
    else
      match env.sourceOpen with
      | .error e => .errored (.sourceOpen e)
      | .ok info =>
        match validateParallelDisks flags env info.size disks with
        | some e => .errored e
        | none =>
          if ¬flags.flashYes ∧ ¬flags.jsonOutput ∧ ¬env.confirmed then .declined
          else
            match parseBufferSize flags.flashBuffer with
            | .error e => .errored (.bufferParse e)
            | .ok bufferMB =>
              if bufferMB < 1 ∨ bufferMB > 64 then .errored (.bufferRange bufferMB)
              else .flashedAll disks bufferMB

/-! ## Derived accounting and invariants used by the statements -/

/-- Source bytes materialized on disk: the read counts of the loop iterations
whose `shouldWrite` was true. -/
def writtenBytes (iters : List IterRec) : Nat :=
  ((iters.filter fun it => it.wrote).map fun it => it.n).sum

/-- Source bytes suppressed by skip-unchanged: the read counts of the
iterations whose `shouldWrite` was false. -/
def skippedBytes (iters : List IterRec) : Nat :=
  ((iters.filter fun it => !it.wrote).map fun it => it.n).sum

/-- The buffer-pool invariant for one size class: every pooled buffer has
exactly the class's length and a 4096-aligned backing address.  `GetBuffer`
establishes it on allocation and the program only returns buffers obtained
from `GetBuffer`. -/
def PoolOk (size : Nat) (pool : List GoSlice) : Prop :=
  ∀ b ∈ pool, b.data.length = size ∧ b.addr % 4096 = 0

/-! ## Concrete inputs used by counterexamples and witnesses -/

/-- A disk environment whose `ReadAt` always succeeds, whose disk reads all
zeros, and whose `WriteAt` always reports a full write. -/
def envAllZero : DiskEnv :=
  { readAtOk := fun _ => true
    diskByte := fun _ => 0
    writeAt := fun _ len => (none, len) }

/-- A source whose two `Read` calls return 100 bytes each: a legal
`io.Reader` behaviour (decompressors routinely return short reads). -/
def shortReads : List SourceRead :=
  [⟨List.replicate 100 0, none⟩, ⟨List.replicate 100 1, none⟩]

/-- A three-byte single-read source, for the hash witness. -/
def hashReads : List SourceRead :=
  [⟨[1, 2, 3], none⟩]

/-- A two-read source whose first chunk equals the disk contents of
`envAllZero` (so skip-unchanged suppresses its write) and whose second
differs. -/
def skipReads : List SourceRead :=
  [⟨List.replicate 8 0, none⟩, ⟨List.replicate 8 7, none⟩]

/-- A one-device inventory for the resolver and oversize witnesses. -/
def deviceE : Device :=
  { diskNumber := 2, driveLetter := "E:", size := 4096, sizeHuman := "4.0 KB"
    friendlyName := "Test USB" }

/-- Flags for the oversize witness: flash disk 2 with defaults. -/
def flagsOversize : FlashFlags :=
  { identifier := "2", flashImage := "big.img", flashVerify := false, flashYes := true
    flashBuffer := "4M", flashHash := false, flashSkipUnchanged := false
    flashMaxSize := "", flashForce := false, jsonOutput := false }

/-- Environment for the oversize witness: the source declares 8192 bytes,
larger than `deviceE`'s 4096. -/
def envOversize : FlashCmdEnv :=
  { imageFileExists := true, isAdmin := true, pwshOk := true
    devices := [deviceE], isSystemDisk := fun _ => false
    lockCreate := none, lockAcquire := none
    sourceOpen := .ok { size := 8192, name := "big.img" }, confirmed := true }

/-- Environment for the parallel witness: the source fits `deviceE`
exactly. -/
def envFits : FlashCmdEnv :=
  { imageFileExists := true, isAdmin := true, pwshOk := true
    devices := [deviceE], isSystemDisk := fun _ => false
    lockCreate := none, lockAcquire := none
    sourceOpen := .ok { size := 4096, name := "fit.img" }, confirmed := true }

/-! # Theorems -/

/-- `unique.go` emits no element of `seen` and no duplicates. -/
theorem unique_go_nodup (l : List Int) : ∀ seen : List Int,
    (∀ x ∈ unique.go seen l, x ∉ seen) ∧ (unique.go seen l).Nodup := by
  induction l with
  | nil => intro seen; simp [unique.go]
  | cons d rest ih =>
    intro seen
    by_cases hd : d ∈ seen
    · simpa [unique.go, hd] using ih seen
    · refine ⟨?_, ?_⟩
      · intro x hx
        simp only [unique.go, if_neg hd, List.mem_cons] at hx
        rcases hx with rfl | hx
        · exact hd
        · have := (ih (d :: seen)).1 x hx
          simp only [List.mem_cons] at this
          tauto
      · simp only [unique.go, if_neg hd, List.nodup_cons]
        refine ⟨?_, (ih (d :: seen)).2⟩
        intro hmem
        have := (ih (d :: seen)).1 d hmem
        simp at this

/-- The deduplicated list `unique` returns has no duplicates. -/
theorem unique_nodup (l : List Int) : (unique l).Nodup :=
  (unique_go_nodup l []).2

/-- A successful `parseDisksLoop` result is `unique` of some list. -/
theorem parseDisksLoop_ok (parts : List String) : ∀ disks l,
    parseDisksLoop parts disks = .ok l → ∃ ds, l = unique ds := by
  induction parts with
  | nil =>
    intro disks l h
    simp only [parseDisksLoop] at h
    injection h with h
    exact ⟨disks, h.symm⟩
  | cons part rest ih =>
    intro disks l h
    simp only [parseDisksLoop] at h
    split at h
    · exact ih disks l h
    · split at h
      · exact absurd h (by simp)
      · exact ih _ l h

/-- C6: `ParseDisks` splits on commas, trims, skips empty tokens, expands
inclusive ranges, rejects reversed ranges and non-integer tokens with the
exact messages of the spec's scenarios, and its successful results are
duplicate-free: `"2,4-6,8" ↦ [2,4,5,6,8]`, `"2,2,3" ↦ [2,3]`, `"5-3"` and
`"a"` fail with the stated messages. -/
theorem claim_C6_parse_disks :
    parseDisks "2,4-6,8" = .ok [2, 4, 5, 6, 8] ∧
    parseDisks "2,2,3" = .ok [2, 3] ∧
    parseDisks "5-3" = .error "invalid range: start > end (5 > 3)" ∧
    parseDisks "a" = .error "invalid disk number: a" ∧
    ∀ s l, parseDisks s = .ok l → l.Nodup := by
  refine ⟨by decide, by decide, by decide, by decide, ?_⟩
  intro s l h
  obtain ⟨ds, rfl⟩ := parseDisksLoop_ok _ _ _ h
  exact unique_nodup ds

/-- C6 witness: the deduplication consequence at the concrete input
`"2,2,3"`. -/
theorem claim_C6_parse_disks_witness :
    parseDisks "2,2,3" = .ok [2, 3] ∧ ([2, 3] : List Int).Nodup :=
  ⟨claim_C6_parse_disks.2.1, claim_C6_parse_disks.2.2.2.2 "2,2,3" [2, 3] (by decide)⟩

/-- C7: the gzip declared size is the ISIZE footer value except when ISIZE is
below the compressed length, or the compressed file exceeds 1 GiB while
ISIZE is under 1 GiB, in which cases it is `compressed × 3`; in particular a
2 GiB file with a 500 MiB ISIZE declares 6 GiB. -/
theorem claim_C7_gzip_size :
    (∀ (c : Int) (i : Nat),
        gzipUncompressedSize c i =
          if (i : Int) < c ∨ (c > oneGB ∧ (i : Int) < oneGB) then c * 3 else (i : Int)) ∧
    gzipUncompressedSize (2 * oneGB) (500 * 2 ^ 20) = 6 * oneGB := by
  constructor
  · intro c i
    simp only [gzipUncompressedSize, oneGB]
    split_ifs <;> omega
  · decide

/-- C5 counterexample: the identifier `"-3"` parses under `strconv.Atoi`
(which accepts signed integers), so `GetDevice` resolves it as disk number
-3 and fails with the disk-number not-found error, not with the
`invalid drive letter` error the claim requires. -/
theorem claim_C5_counterexample :
    getDevice [] "-3" = .error "USB disk -3: not found" ∧
    getDevice [] "-3" ≠ .error "invalid drive letter: -3" := by
  exact ⟨by decide, by decide⟩

/-- C5 (amended): an identifier accepted by `strconv.Atoi` — including
negative integers — is resolved as a disk number; any other identifier is
uppercased, a trailing colon is stripped, and unless the remainder is
exactly one letter A-Z the lookup fails with an `invalid drive letter`
error; `"e:"` resolves as drive letter E. -/
theorem claim_C5_resolver :
    (∀ (devices : List Device) (ident : String) (n : Int), goAtoi ident = some n →
        getDevice devices ident = getDeviceByDiskNumber devices n) ∧
    (∀ (devices : List Device) (ident : String), goAtoi ident = none →
        ((goTrimSuffix (goToUpper ident) ":").length ≠ 1 ∨
          (goTrimSuffix (goToUpper ident) ":").data.headD ' ' < 'A' ∨
          'Z' < (goTrimSuffix (goToUpper ident) ":").data.headD ' ') →
        getDevice devices ident =
          .error ("invalid drive letter: " ++ goTrimSuffix (goToUpper ident) ":")) ∧
    getDevice [deviceE] "e:" = .ok deviceE := by
  refine ⟨?_, ?_, by decide⟩
  · intro devices ident n h
    simp only [getDevice, h]
  · intro devices ident h hbad
    simp only [getDevice, h, getDeviceByDriveLetter, if_pos hbad]

/-- C5 witness: both amended branches at concrete inputs (`"-3"` goes to the
disk-number path; `"zz"` fails as an invalid drive letter). -/
theorem claim_C5_resolver_witness :
    getDevice [] "-3" = getDeviceByDiskNumber [] (-3) ∧
    getDevice [] "zz" = .error "invalid drive letter: ZZ" :=
  ⟨claim_C5_resolver.1 [] "-3" (-3) (by decide),
   claim_C5_resolver.2.1 [] "zz" (by decide) (by decide)⟩

set_option maxRecDepth 100000 in
/-- C1 (bug evaluation): a source whose two reads return 100 bytes each — a
legal `io.Reader` behaviour — makes the write loop issue its second
`WriteAt` at offset 100, which is not a multiple of 4096, contradicting the
alignment `WriteAt`'s contract and the spec require (buffer lengths are
aligned, offsets are not). -/
theorem claim_C1_unaligned_offset :
    (writeImage envAllZero ⟨false, false⟩ shortReads).calls =
      [IOCall.writeAt 4096 0, IOCall.writeAt 4096 100] ∧
    ¬(100 % 4096 = 0) := by
  exact ⟨by decide, by decide⟩

/-- C9: a `GetBuffer` over a well-formed pool returns a slice of exactly the
requested length with a 4096-aligned backing address (fresh allocations are
realigned arithmetically; pooled buffers carry the invariant); `PutBuffer`
drops nil and wrong-length buffers and zeroes an accepted buffer before
pooling it. -/
theorem claim_C9_buffer_pool :
    (∀ (pool : List GoSlice) (size base : Nat), 0 < size → PoolOk size pool →
        (GetBuffer pool size base).1.data.length = size ∧
        (GetBuffer pool size base).1.addr % 4096 = 0) ∧
    (∀ (pool : List GoSlice) (size : Nat), PutBuffer pool size none = pool) ∧
    (∀ (pool : List GoSlice) (size : Nat) (b : GoSlice), b.data.length ≠ size →
        PutBuffer pool size (some b) = pool) ∧
    (∀ (pool : List GoSlice) (size : Nat) (b : GoSlice), b.data.length = size →
        PutBuffer pool size (some b) = ⟨b.addr, List.replicate size 0⟩ :: pool) := by
  refine ⟨?_, ?_, ?_, ?_⟩
  · intro pool size base hsize hok
    match pool with
    | [] =>
      refine ⟨?_, ?_⟩
      · simp only [GetBuffer, alignedBuffer, alignment, List.length_take, List.length_drop,
          List.length_replicate]
        omega
      · simp only [GetBuffer, alignedBuffer, alignment]
        omega
    | b :: rest =>
      exact hok b (List.mem_cons_self b rest)
  · intro pool size
    rfl
  · intro pool size b hb
    simp [PutBuffer, hb]
  · intro pool size b hb
    simp [PutBuffer, hb]

/-- C9 witness: a fresh 8-byte buffer allocated with base address 5 is
8 bytes long at an aligned address, and a wrong-length `PutBuffer` is a
no-op. -/
theorem claim_C9_buffer_pool_witness :
    (GetBuffer [] 8 5).1.data.length = 8 ∧ (GetBuffer [] 8 5).1.addr % 4096 = 0 ∧
    PutBuffer [] 8 (some ⟨0, [1, 2, 3]⟩) = [] :=
  ⟨(claim_C9_buffer_pool.1 [] 8 5 (by decide) (by simp [PoolOk])).1,
   (claim_C9_buffer_pool.1 [] 8 5 (by decide) (by simp [PoolOk])).2,
   claim_C9_buffer_pool.2.2.1 [] 8 ⟨0, [1, 2, 3]⟩ (by decide)⟩

/-- Every exit path of a `FlashAll` task records its own disk number. -/
theorem flashTaskResult_diskNumber (d : Int) (o : TaskOutcome) (e : Nat) :
    (flashTaskResult d o e).diskNumber = d := by
  cases o <;> rfl

/-- Every exit path of a `FormatAll` task records its own disk number. -/
theorem formatTaskResult_diskNumber (d : Int) (o : TaskOutcome) (e : Nat) :
    (formatTaskResult d o e).diskNumber = d := by
  cases o <;> rfl

/-- The index-addressed results carry the input disks in order, whatever the
per-task outcomes. -/
theorem runTasks_map_diskNumber (taskRes : Int → TaskOutcome → Nat → OperationResult)
    (hres : ∀ d o e, (taskRes d o e).diskNumber = d)
    (outcome : Nat → TaskOutcome) (elapsed : Nat → Nat) :
    ∀ (disks : List Int) (i : Nat),
      ((runTasks taskRes outcome elapsed i disks).map fun r => r.diskNumber) = disks := by
  intro disks
  induction disks with
  | nil => intro i; rfl
  | cons d rest ih => intro i; simp [runTasks, hres, ih]

/-- The summary fold counts successes and failures. -/
theorem foldl_counts (results : List OperationResult) : ∀ p : Nat × Nat,
    (results.foldl
        (fun (p : Nat × Nat) r => if r.success then (p.1 + 1, p.2) else (p.1, p.2 + 1)) p).1
      = p.1 + results.countP (fun r => r.success) ∧
    (results.foldl
        (fun (p : Nat × Nat) r => if r.success then (p.1 + 1, p.2) else (p.1, p.2 + 1)) p).2
      = p.2 + results.countP (fun r => !r.success) := by
  induction results with
  | nil => intro p; simp
  | cons r rest ih =>
    intro p
    by_cases hr : r.success <;>
      simp [List.countP_cons, hr, List.foldl_cons, (ih _).1, (ih _).2] <;> omega

/-- Successes and failures partition the results. -/
theorem countP_success_add (l : List OperationResult) :
    l.countP (fun r => r.success) + l.countP (fun r => !r.success) = l.length := by
  induction l with
  | nil => rfl
  | cons r rest ih =>
    by_cases h : r.success <;> simp [List.countP_cons, h] <;> omega

/-- C8: for every input disk list, `FlashAll` and `FormatAll` return results
whose `i`-th entry carries `disks[i]` regardless of completion order, with
`total = len(disks)`, `succeeded` counting exactly the successful entries,
and `succeeded + failed = total`. -/
theorem claim_C8_batch_shape :
    ∀ (disks : List Int) (outcome : Nat → TaskOutcome) (elapsed : Nat → Nat),
      (((FlashAll disks outcome elapsed).results.map fun r => r.diskNumber) = disks ∧
        (FlashAll disks outcome elapsed).total = disks.length ∧
        (FlashAll disks outcome elapsed).succeeded
          = (FlashAll disks outcome elapsed).results.countP (fun r => r.success) ∧
        (FlashAll disks outcome elapsed).succeeded + (FlashAll disks outcome elapsed).failed
          = (FlashAll disks outcome elapsed).total) ∧
      (((FormatAll disks outcome elapsed).results.map fun r => r.diskNumber) = disks ∧
        (FormatAll disks outcome elapsed).total = disks.length ∧
        (FormatAll disks outcome elapsed).succeeded
          = (FormatAll disks outcome elapsed).results.countP (fun r => r.success) ∧
        (FormatAll disks outcome elapsed).succeeded + (FormatAll disks outcome elapsed).failed
          = (FormatAll disks outcome elapsed).total) := by
  intro disks outcome elapsed
  have hlenF : (runTasks flashTaskResult outcome elapsed 0 disks).length = disks.length := by
    have := runTasks_map_diskNumber flashTaskResult flashTaskResult_diskNumber outcome elapsed disks 0
    simpa using congrArg List.length this
  have hlenM : (runTasks formatTaskResult outcome elapsed 0 disks).length = disks.length := by
    have := runTasks_map_diskNumber formatTaskResult formatTaskResult_diskNumber outcome elapsed disks 0
    simpa using congrArg List.length this
  refine ⟨⟨?_, rfl, ?_, ?_⟩, ⟨?_, rfl, ?_, ?_⟩⟩
  · exact runTasks_map_diskNumber flashTaskResult flashTaskResult_diskNumber outcome elapsed disks 0
  · simpa [FlashAll, buildBatch] using (foldl_counts _ (0, 0)).1
  · have h1 := (foldl_counts (runTasks flashTaskResult outcome elapsed 0 disks) (0, 0)).1
    have h2 := (foldl_counts (runTasks flashTaskResult outcome elapsed 0 disks) (0, 0)).2
    have h3 := countP_success_add (runTasks flashTaskResult outcome elapsed 0 disks)
    simp only [FlashAll, buildBatch]
    omega
  · exact runTasks_map_diskNumber formatTaskResult formatTaskResult_diskNumber outcome elapsed disks 0
  · simpa [FormatAll, buildBatch] using (foldl_counts _ (0, 0)).1
  · have h1 := (foldl_counts (runTasks formatTaskResult outcome elapsed 0 disks) (0, 0)).1
    have h2 := (foldl_counts (runTasks formatTaskResult outcome elapsed 0 disks) (0, 0)).2
    have h3 := countP_success_add (runTasks formatTaskResult outcome elapsed 0 disks)
    simp only [FormatAll, buildBatch]
    omega

/-- A string append with a non-empty right operand is non-empty. -/
theorem string_append_ne_empty (a b : String) (hb : b ≠ "") : a ++ b ≠ "" := by
  intro h
  apply hb
  have hlen := congrArg String.length h
  rw [String.length_append] at hlen
  have hz : String.length "" = 0 := rfl
  have hb0 : b.length = 0 := by omega
  cases b with
  | mk data =>
    cases data with
    | nil => rfl
    | cons c cs => simp [String.length] at hb0

/-- `time.Duration.String()` never renders an empty string: every branch
ends in a unit suffix. -/
theorem goDurationString_ne_empty (u : Nat) : goDurationString u ≠ "" := by
  simp only [goDurationString]
  split_ifs
  · decide
  · exact string_append_ne_empty _ _ (by decide)
  · exact string_append_ne_empty _ _ (by decide)
  · exact string_append_ne_empty _ _ (by decide)
  · exact string_append_ne_empty _ _ (by decide)
  · exact string_append_ne_empty _ _
      (string_append_ne_empty _ _ (by decide))
  · exact string_append_ne_empty _ _
      (string_append_ne_empty _ _ (string_append_ne_empty _ _ (by decide)))

/-- C10: in `FormatAll`, `FlashAll` and `LabelAll`, a task whose cancellation
wins the semaphore race records `success = false`, `error = "cancelled"` and
an empty (zero-valued) `Duration`, while every exit path that enters the
operation body — lock failures included — records a non-empty `Duration`. -/
theorem claim_C10_cancelled_shape :
    ∀ (d : Int) (dl : String) (o : TaskOutcome) (lo : LabelOutcome) (e : Nat),
      flashTaskResult d .cancelled e =
        { diskNumber := d, success := false, error := "cancelled", duration := "" } ∧
      formatTaskResult d .cancelled e =
        { diskNumber := d, success := false, error := "cancelled", duration := "" } ∧
      labelTaskResult dl .cancelled e =
        { driveLetter := dl ++ ":", success := false, error := "cancelled", duration := "" } ∧
      (o ≠ .cancelled → (flashTaskResult d o e).duration ≠ "") ∧
      (o ≠ .cancelled → (formatTaskResult d o e).duration ≠ "") ∧
      (lo ≠ .cancelled → (labelTaskResult dl lo e).duration ≠ "") := by
  intro d dl o lo e
  refine ⟨rfl, rfl, rfl, ?_, ?_, ?_⟩
  · intro ho
    cases o with
    | cancelled => exact absurd rfl ho
    | lockErr msg => exact goDurationString_ne_empty e
    | lockBusy => exact goDurationString_ne_empty e
    | opDone err => exact goDurationString_ne_empty e
  · intro ho
    cases o with
    | cancelled => exact absurd rfl ho
    | lockErr msg => exact goDurationString_ne_empty e
    | lockBusy => exact goDurationString_ne_empty e
    | opDone err => exact goDurationString_ne_empty e
  · intro hlo
    cases lo with
    | cancelled => exact absurd rfl hlo
    | opDone err => exact goDurationString_ne_empty e

/-- C10 witness: lock-busy and label tasks with a 1 ms body record non-empty
durations; cancellation records the empty one. -/
theorem claim_C10_cancelled_shape_witness :
    flashTaskResult 2 .cancelled 1000000 =
      { diskNumber := 2, success := false, error := "cancelled", duration := "" } ∧
    (flashTaskResult 2 .lockBusy 1000000).duration ≠ "" ∧
    (labelTaskResult "E" (.opDone none) 1000000).duration ≠ "" :=
  ⟨(claim_C10_cancelled_shape 2 "E" .lockBusy (.opDone none) 1000000).1,
   (claim_C10_cancelled_shape 2 "E" .lockBusy (.opDone none) 1000000).2.2.2.1 (by decide),
   (claim_C10_cancelled_shape 2 "E" .lockBusy (.opDone none) 1000000).2.2.2.2.2 (by decide)⟩

theorem writtenBytes_nil : writtenBytes [] = 0 := rfl

theorem skippedBytes_nil : skippedBytes [] = 0 := rfl

theorem writtenBytes_cons (it : IterRec) (l : List IterRec) :
    writtenBytes (it :: l) = (if it.wrote then it.n else 0) + writtenBytes l := by
  by_cases h : it.wrote <;> simp [writtenBytes, h]

theorem skippedBytes_cons (it : IterRec) (l : List IterRec) :
    skippedBytes (it :: l) = (if it.wrote then 0 else it.n) + skippedBytes l := by
  by_cases h : it.wrote <;> simp [skippedBytes, h]

/-- The write-loop invariant: an error-free run extends the accumulators by
a suffix `dc` of consumed chunks and `di` of iteration records such that the
final hash digests exactly the hasher accumulator plus the new chunks, the
returned skip counter adds exactly the skipped iterations' read counts, and
written plus skipped read counts account for every consumed byte. -/
theorem writeImageLoop_spec (env : DiskEnv) (opts : WriteOpts) :
    ∀ (reads : List SourceRead) (bw bs : Nat) (hashed : List Nat) (calls : List IOCall)
      (consumed : List (List Nat)) (iters : List IterRec),
      (writeImageLoop env opts reads bw bs hashed calls consumed iters).err = none →
      ∃ dc di,
        (writeImageLoop env opts reads bw bs hashed calls consumed iters).consumed
          = consumed ++ dc ∧
        (writeImageLoop env opts reads bw bs hashed calls consumed iters).iters
          = iters ++ di ∧
        (writeImageLoop env opts reads bw bs hashed calls consumed iters).hash
          = (if opts.calculateHash then sha256hex (hashed ++ dc.flatten) else "") ∧
        (writeImageLoop env opts reads bw bs hashed calls consumed iters).bytesSkipped
          = bs + skippedBytes di ∧
        writtenBytes di + skippedBytes di = dc.flatten.length := by
  intro reads
  induction reads with
  | nil =>
    intro bw bs hashed calls consumed iters herr
    refine ⟨[], [], by simp [writeImageLoop], by simp [writeImageLoop], ?_, ?_, ?_⟩
    · by_cases hc : opts.calculateHash <;> simp [writeImageLoop, hc]
    · simp [writeImageLoop, skippedBytes]
    · simp [writtenBytes, skippedBytes]
  | cons r rest ih =>
    intro bw bs hashed calls consumed iters herr
    by_cases hn : r.data.length = 0
    · have hdata : r.data = [] := List.length_eq_zero.mp hn
      match he : r.err with
      | some e =>
        by_cases heof : e = "EOF"
        · refine ⟨[r.data], [], ?_, ?_, ?_, ?_, ?_⟩
          · simp [writeImageLoop, hn, he, heof]
          · simp [writeImageLoop, hn, he, heof]
          · by_cases hc : opts.calculateHash <;>
              simp [writeImageLoop, hn, he, heof, hdata, hc]
          · simp [writeImageLoop, hn, he, heof, skippedBytes]
          · simp [writtenBytes, skippedBytes, hdata]
        · exfalso
          simp [writeImageLoop, hn, he, heof] at herr
      | none =>
        refine ⟨[r.data], [], ?_, ?_, ?_, ?_, ?_⟩
        · simp [writeImageLoop, hn, he]
        · simp [writeImageLoop, hn, he]
        · by_cases hc : opts.calculateHash <;> simp [writeImageLoop, hn, he, hdata, hc]
        · simp [writeImageLoop, hn, he, skippedBytes]
        · simp [writtenBytes, skippedBytes, hdata]
    · by_cases hsk : opts.skipUnchanged = true
      · by_cases hcmp : (env.readAtOk bw ∧
            r.data = (List.range r.data.length).map fun i => env.diskByte (bw + i))
        · -- skip-unchanged suppressed the write
          have hred : writeImageLoop env opts (r :: rest) bw bs hashed calls consumed iters
              = writeImageLoop env opts rest (bw + r.data.length) (bs + r.data.length)
                  (if opts.calculateHash then hashed ++ r.data else hashed)
                  (calls ++ [IOCall.readAt (alignSize r.data.length) bw])
                  (consumed ++ [r.data]) (iters ++ [⟨r.data.length, false⟩]) := by
            simp only [writeImageLoop]
            rw [if_neg hn, if_pos hsk, if_pos hcmp]
            simp
          rw [hred] at herr ⊢
          obtain ⟨dc, di, h1, h2, h3, h4, h5⟩ := ih _ _ _ _ _ _ herr
          refine ⟨r.data :: dc, ⟨r.data.length, false⟩ :: di, ?_, ?_, ?_, ?_, ?_⟩
          · rw [h1]; simp
          · rw [h2]; simp
          · rw [h3]; by_cases hc : opts.calculateHash <;> simp [hc]
          · rw [h4, skippedBytes_cons]; simp; omega
          · rw [skippedBytes_cons, writtenBytes_cons]
            simp only [List.flatten_cons, List.length_append]
            simp at h5 ⊢
            omega
        · -- the compare failed (or the disk read errored): the write proceeds
          rcases hw : env.writeAt bw (alignSize r.data.length) with ⟨werr, written⟩
          simp only [writeImageLoop] at herr ⊢
          rw [if_neg hn, if_pos hsk, if_neg hcmp] at herr ⊢
          simp only [hw] at herr ⊢
          cases werr with
          | some e => simp at herr
          | none =>
            simp only [if_true] at herr ⊢
            by_cases hlt : written < alignSize r.data.length
            · rw [if_pos hlt] at herr ⊢
              refine ⟨[r.data], [⟨r.data.length, true⟩], ?_, ?_, ?_, ?_, ?_⟩
              · rfl
              · rfl
              · by_cases hc : opts.calculateHash <;> simp [hc]
              · simp [skippedBytes]
              · simp [writtenBytes, skippedBytes]
            · rw [if_neg hlt] at herr ⊢
              obtain ⟨dc, di, h1, h2, h3, h4, h5⟩ := ih _ _ _ _ _ _ herr
              refine ⟨r.data :: dc, ⟨r.data.length, true⟩ :: di, ?_, ?_, ?_, ?_, ?_⟩
              · rw [h1]; simp
              · rw [h2]; simp
              · rw [h3]; by_cases hc : opts.calculateHash <;> simp [hc]
              · rw [h4, skippedBytes_cons]; simp
              · rw [skippedBytes_cons, writtenBytes_cons]
                simp only [List.flatten_cons, List.length_append]
                simp at h5 ⊢
                omega
      · -- skip-unchanged not requested: the write proceeds
        rcases hw : env.writeAt bw (alignSize r.data.length) with ⟨werr, written⟩
        simp only [writeImageLoop] at herr ⊢
        rw [if_neg hn, if_neg hsk] at herr ⊢
        simp only [hw] at herr ⊢
        cases werr with
        | some e => simp at herr
        | none =>
          simp only [if_true] at herr ⊢
          by_cases hlt : written < alignSize r.data.length
          · rw [if_pos hlt] at herr ⊢
            refine ⟨[r.data], [⟨r.data.length, true⟩], ?_, ?_, ?_, ?_, ?_⟩
            · rfl
            · rfl
            · by_cases hc : opts.calculateHash <;> simp [hc]
            · simp [skippedBytes]
            · simp [writtenBytes, skippedBytes]
          · rw [if_neg hlt] at herr ⊢
            obtain ⟨dc, di, h1, h2, h3, h4, h5⟩ := ih _ _ _ _ _ _ herr
            refine ⟨r.data :: dc, ⟨r.data.length, true⟩ :: di, ?_, ?_, ?_, ?_, ?_⟩
            · rw [h1]; simp
            · rw [h2]; simp
            · rw [h3]; by_cases hc : opts.calculateHash <;> simp [hc]
            · rw [h4, skippedBytes_cons]; simp
            · rw [skippedBytes_cons, writtenBytes_cons]
              simp only [List.flatten_cons, List.length_append]
              simp at h5 ⊢
              omega

/-- C2: when `calculate_hash` is set, an error-free run of the write loop
returns the lowercase-hex SHA-256 digest of exactly the concatenation of the
bytes the source's `Read` calls produced — no padding bytes, no re-reads. -/
theorem claim_C2_hash_stream :
    ∀ (env : DiskEnv) (opts : WriteOpts) (reads : List SourceRead),
      opts.calculateHash = true →
      (writeImage env opts reads).err = none →
      (writeImage env opts reads).hash =
        sha256hex (writeImage env opts reads).consumed.flatten := by
  intro env opts reads hc herr
  obtain ⟨dc, di, h1, h2, h3, h4, h5⟩ :=
    writeImageLoop_spec env opts reads 0 0 [] [] [] [] herr
  simp only [writeImage]
  rw [h1, h3, if_pos hc]
  simp

/-- C2 witness: the digest of a one-read three-byte source. -/
theorem claim_C2_hash_stream_witness :
    (writeImage envAllZero ⟨true, false⟩ hashReads).hash =
      sha256hex (writeImage envAllZero ⟨true, false⟩ hashReads).consumed.flatten :=
  claim_C2_hash_stream envAllZero ⟨true, false⟩ hashReads rfl (by decide)

/-- C3: in an error-free run, the returned `bytesSkipped` is exactly the sum
of the read counts of the iterations whose write was suppressed, and source
bytes written plus `bytesSkipped` account for every byte the source's reads
produced — each iteration contributes its `n` bytes to exactly one side. -/
theorem claim_C3_skip_accounting :
    ∀ (env : DiskEnv) (opts : WriteOpts) (reads : List SourceRead),
      opts.skipUnchanged = true →
      (writeImage env opts reads).err = none →
      (writeImage env opts reads).bytesSkipped
          = skippedBytes (writeImage env opts reads).iters ∧
      writtenBytes (writeImage env opts reads).iters + (writeImage env opts reads).bytesSkipped
          = (writeImage env opts reads).consumed.flatten.length := by
  intro env opts reads hsk herr
  obtain ⟨dc, di, h1, h2, h3, h4, h5⟩ :=
    writeImageLoop_spec env opts reads 0 0 [] [] [] [] herr
  simp only [writeImage]
  rw [h1, h2, h4]
  simp only [List.nil_append]
  exact ⟨by omega, by omega⟩

/-- C3 witness: a two-read source over a zero disk with skip-unchanged on:
the first read is skipped, the second written, and the accounting balances. -/
theorem claim_C3_skip_accounting_witness :
    (writeImage envAllZero ⟨false, true⟩ skipReads).bytesSkipped
        = skippedBytes (writeImage envAllZero ⟨false, true⟩ skipReads).iters ∧
    writtenBytes (writeImage envAllZero ⟨false, true⟩ skipReads).iters
        + (writeImage envAllZero ⟨false, true⟩ skipReads).bytesSkipped
        = (writeImage envAllZero ⟨false, true⟩ skipReads).consumed.flatten.length :=
  claim_C3_skip_accounting envAllZero ⟨false, true⟩ skipReads rfl (by decide)

/-- A clean per-disk validation pass guarantees every disk was resolved and
holds the image. -/
theorem validateParallelDisks_none (flags : FlashFlags) (env : FlashCmdEnv) (imageSize : Int) :
    ∀ disks : List Int, validateParallelDisks flags env imageSize disks = none →
      ∀ d ∈ disks, ∃ dev, getDeviceByDiskNumber env.devices d = .ok dev ∧ imageSize ≤ dev.size := by
  intro disks
  induction disks with
  | nil => intro _ d hd; simp at hd
  | cons diskNum rest ih =>
    intro h d hd
    simp only [validateParallelDisks] at h
    split at h
    · simp at h
    · rename_i device heq
      split at h
      · simp at h
      · rename_i hsz
        split at h
        · simp at h
        · rcases List.mem_cons.mp hd with rfl | hmem
          · exact ⟨device, heq, by omega⟩
          · exact ih h d hmem

/-- C4: an image source that declares strictly more bytes than the target
device holds is rejected before any flasher runs, so the raw disk writer —
opened only inside `Flasher.Flash` — is never opened: the single-disk path
always errors under an oversized source, and every disk a parallel
`FlashAll` invocation received passed the image-fits validation. -/
theorem claim_C4_oversize_rejected :
    (∀ (flags : FlashFlags) (env : FlashCmdEnv) (device : Device) (info : SourceInfo),
        getDevice env.devices flags.identifier = .ok device →
        env.sourceOpen = .ok info →
        info.size > device.size →
        ∃ e, runSingleFlash flags env = .errored e) ∧
    (∀ (flags : FlashFlags) (env : FlashCmdEnv) (disks : List Int) (bufferMB : Int),
        runParallelFlash flags env = .flashedAll disks bufferMB →
        ∃ info, env.sourceOpen = .ok info ∧
          ∀ d ∈ disks, ∃ dev, getDeviceByDiskNumber env.devices d = .ok dev ∧
            info.size ≤ dev.size) := by
  constructor
  · intro flags env device info h1 h2 h3
    simp only [runSingleFlash]
    split_ifs <;>
      first
        | exact ⟨_, rfl⟩
        | (simp only [h1]
           cases hs : singleSafetyChecks flags env device with
           | some e => exact ⟨e, by simp [hs]⟩
           | none =>
             simp only [hs]
             cases hlc : env.lockCreate with
             | some e => exact ⟨.lockCreate e, by simp [hlc]⟩
             | none =>
               simp only [hlc]
               cases hla : env.lockAcquire with
               | some e => exact ⟨.lockAcquire e, by simp [hla]⟩
               | none =>
                 simp only [hla, h2]
                 rw [if_pos h3]
                 exact ⟨_, rfl⟩)
  · intro flags env disks bufferMB h
    simp only [runParallelFlash] at h
    split at h
    · simp at h
    · rename_i parsed hparse
      split_ifs at h <;> try simp at h
      all_goals
        (split at h
         · simp at h
         · rename_i info hinfo
           split at h
           · simp at h
           · rename_i hval
             first
               | (simp at h; done)
               | (split at h
                  · simp at h
                  · rename_i bmb hbuf
                    by_cases hrange : bmb < 1 ∨ 64 < bmb
                    · rw [if_pos hrange] at h
                      simp at h
                    · rw [if_neg hrange] at h
                      injection h with hdisks hbuf2
                      subst hdisks
                      exact ⟨info, hinfo,
                        validateParallelDisks_none flags env info.size _ hval⟩))

/-- C4 witness: with a 4096-byte device, an 8192-byte source makes the
single-disk path error, and a parallel invocation that did run implies the
fitting bound at each of its disks. -/
theorem claim_C4_oversize_rejected_witness :
    (∃ e, runSingleFlash flagsOversize envOversize = .errored e) ∧
    (∃ info, envFits.sourceOpen = .ok info ∧
      ∀ d ∈ ([2] : List Int), ∃ dev, getDeviceByDiskNumber envFits.devices d = .ok dev ∧
        info.size ≤ dev.size) :=
  ⟨claim_C4_oversize_rejected.1 flagsOversize envOversize deviceE ⟨8192, "big.img"⟩
      (by decide) rfl (by decide),
   claim_C4_oversize_rejected.2 flagsOversize envFits [2] 4 (by decide)⟩

end Wusbkit
